import Mathlib

/-!
Shallow embedding of the Transfer Queue and Session Orchestrator of the
Keeper-Triage repository.

The embedding follows the source files:
  * src/services/queueService.ts   (QueueService: Redis-backed priority queue)
  * src/services/databaseService.ts (DatabaseService: Postgres session/agent rows)
  * src/services/chatService.ts    (ChatService: the orchestrating layer)
  * src/socket/chatManager.ts      (ChatManager: the in-memory variant)

Modelling conventions:
  * Redis lists are Lean lists; lpush is cons at the head, rpop takes the last
    element, lrange 0 -1 is the list itself scanned from the head.
  * The Redis hash QUEUE_METADATA and the relational tables are association
    lists from key to row; an SQL update-where-id is a map over the rows.
  * Timestamp fields (requestedAt, addedAt, createdAt, updatedAt,
    lastActiveAt) are never read by any of the control paths the claims are
    about, so they are omitted from the state.
  * The analytics writes to the transfer_queue Postgres table are modelled
    only through the dbOk flag of the queue state: a write raises exactly
    when the durable store is unreachable (dbOk = false).  removeFromQueue is
    the one operation whose source wraps its body in a try/catch, so it is
    modelled as a body returning Except (error carries the state at the throw,
    since the Redis mutations before the throw are not rolled back) plus the
    catch that turns an error into a plain false return.
-/

/-- Priority of a queue entry: the three lanes of the transfer queue. -/
inductive Priority where
  | high
  | normal
  | low
deriving DecidableEq

/-- QueueEntry as in queueService.ts (requestedAt and metadata blob omitted:
never read by the modelled control paths). -/
structure QueueEntry where
  sessionId : String
  reason : String
  priority : Priority
deriving DecidableEq

/-- Session status enum of the chat_sessions table. -/
inductive SessionStatus where
  | bot
  | waiting
  | agent
  | closed
deriving DecidableEq

/-- Agent status enum of the agents table. -/
inductive AgentStatus where
  | available
  | busy
  | offline
deriving DecidableEq

/-- A chat_sessions row (timestamps, botContext and metadata omitted). -/
structure ChatSession where
  id : String
  userId : String
  status : SessionStatus
  assignedAgent : Option String
deriving DecidableEq

/-- An agents row (socketId, metadata and timestamps omitted). -/
structure AgentRow where
  id : String
  name : String
  status : AgentStatus
deriving DecidableEq

/-- Lookup in an association list (Redis hget / SQL select-by-id). -/
def lookupKey {α : Type} : List (String × α) → String → Option α
  | [], _ => none
  | (k, v) :: rest, k' => if k = k' then some v else lookupKey rest k'

/-- Redis hset: overwrite the value at a key, or append the pair. -/
def hset {α : Type} : List (String × α) → String → α → List (String × α)
  | [], k, v => [(k, v)]
  | (k', v') :: rest, k, v =>
      if k' = k then (k, v) :: rest else (k', v') :: hset rest k v

/-- Redis hdel: remove the pair at a key. -/
def hdel {α : Type} : List (String × α) → String → List (String × α)
  | [], _ => []
  | (k', v') :: rest, k =>
      if k' = k then hdel rest k else (k', v') :: hdel rest k

/-- Redis sadd on a set represented as a list. -/
def sadd (s : List String) (k : String) : List String :=
  if k ∈ s then s else k :: s

/-- Redis srem on a set represented as a list. -/
def srem (s : List String) (k : String) : List String :=
  s.filter (fun x => x ≠ k)

/-- Remove the first element satisfying a predicate, reporting whether one was
found (the findIndex-then-splice / scan-then-lrem pattern of the source). -/
def removeFirst {α : Type} (p : α → Bool) : List α → Bool × List α
  | [] => (false, [])
  | x :: xs =>
      if p x then (true, xs)
      else
        let r := removeFirst p xs
        (r.1, x :: r.2)

/-- An SQL update of every row whose key equals k (update .. where id = k). -/
def updRows {α : Type} : List (String × α) → String → (α → α) → List (String × α)
  | [], _, _ => []
  | (k', v) :: rest, k, f =>
      if k' = k then (k', f v) :: updRows rest k f
      else (k', v) :: updRows rest k f

/-- State of the QueueService: the three Redis lists (head = most recently
lpushed), the QUEUE_METADATA hash, the ACTIVE_SESSIONS set, and a flag
telling whether the durable (Postgres) store is reachable. -/
structure QueueState where
  high : List QueueEntry
  normal : List QueueEntry
  low : List QueueEntry
  metadata : List (String × QueueEntry)
  active : List String
  dbOk : Bool
deriving DecidableEq

/-- The empty queue with a reachable durable store. -/
def emptyQueue : QueueState :=
  { high := [], normal := [], low := [], metadata := [], active := [], dbOk := true }

/-- Select the Redis list for a priority (getPriorityQueueKey). -/
def getLane (st : QueueState) : Priority → List QueueEntry
  | .high => st.high
  | .normal => st.normal
  | .low => st.low

/-- Replace the Redis list of a priority. -/
def setLane (st : QueueState) (p : Priority) (l : List QueueEntry) : QueueState :=
  match p with
  | .high => { st with high := l }
  | .normal => { st with normal := l }
  | .low => { st with low := l }

/-- QueueService.addToQueue: lpush the entry onto its priority lane, hset the
metadata hash, sadd the active set.  The Postgres insert .. onConflictDoUpdate
touches only the analytics table and is not part of the queue state. -/
def addToQueue (st : QueueState) (sessionId reason : String) (priority : Priority) :
    QueueState :=
  let entry : QueueEntry := ⟨sessionId, reason, priority⟩
  let st1 := setLane st priority (entry :: getLane st priority)
  { st1 with
    metadata := hset st1.metadata sessionId entry
    active := sadd st1.active sessionId }

/-- Redis rpop: take the element at the tail of the list. -/
def rpop (l : List QueueEntry) : Option (QueueEntry × List QueueEntry) :=
  match l.getLast? with
  | none => none
  | some e => some (e, l.dropLast)

/-- Metadata and active-set cleanup performed after a successful rpop. -/
def cleanupAfterPop (st : QueueState) (sid : String) : QueueState :=
  { st with metadata := hdel st.metadata sid, active := srem st.active sid }

/-- QueueService.getNextInQueue: rpop the high lane, then the normal lane,
then the low lane; on a hit, hdel the metadata, srem the active set and
return the entry; otherwise return null immediately. -/
def getNextInQueue (st : QueueState) : Option QueueEntry × QueueState :=
  match rpop st.high with
  | some (e, h') => (some e, cleanupAfterPop { st with high := h' } e.sessionId)
  | none =>
    match rpop st.normal with
    | some (e, n') => (some e, cleanupAfterPop { st with normal := n' } e.sessionId)
    | none =>
      match rpop st.low with
      | some (e, l') => (some e, cleanupAfterPop { st with low := l' } e.sessionId)
      | none => (none, st)

/-- Body of QueueService.removeFromQueue, before the surrounding try/catch:
hget the metadata (absent: return false), scan the lane from the head and
lrem the first entry with this sessionId, hdel the metadata, srem the active
set, then mark the Postgres row processed - the one step that raises when the
durable store is unreachable.  The error value carries the state at the
throw, because the Redis mutations already performed are not rolled back. -/
def removeFromQueueBody (st : QueueState) (sid : String) :
    Except (String × QueueState) (Bool × QueueState) :=
  match lookupKey st.metadata sid with
  | none => .ok (false, st)
  | some m =>
    let r := removeFirst (fun e => e.sessionId = sid) (getLane st m.priority)
    let st1 := setLane st m.priority r.2
    let st2 := { st1 with metadata := hdel st1.metadata sid, active := srem st1.active sid }
    if st.dbOk then .ok (r.1, st2)
    else .error ("store unavailable", st2)

/-- QueueService.removeFromQueue: the body wrapped in the source's try/catch,
which logs the error and returns false. -/
def removeFromQueue (st : QueueState) (sid : String) : Bool × QueueState :=
  match removeFromQueueBody st sid with
  | .ok r => r
  | .error e => (false, e.2)

/-- QueueService.getQueuePosition: hget the metadata (absent: 0), scan the
lane from the head for the sessionId (absent: 0); position inside the lane is
the reverse index (list length minus head index), plus the length of the high
lane when the priority is normal or low, plus the length of the normal lane
when the priority is low. -/
def getQueuePosition (st : QueueState) (sid : String) : Nat :=
  match lookupKey st.metadata sid with
  | none => 0
  | some m =>
    let lane := getLane st m.priority
    match lane.findIdx? (fun e => e.sessionId = sid) with
    | none => 0
    | some i =>
      let pos := lane.length - i
      let pos := if m.priority = .normal ∨ m.priority = .low then pos + st.high.length else pos
      let pos := if m.priority = .low then pos + st.normal.length else pos
      pos

/-- One row of QueueService.getWaitingSessions (the constant status field and
the wall-clock waitTime are omitted). -/
structure QueueStatusRow where
  sessionId : String
  priority : Priority
  position : Nat
deriving DecidableEq

/-- Insert a row into a list sorted by ascending position. -/
def insertByPos (x : QueueStatusRow) : List QueueStatusRow → List QueueStatusRow
  | [] => [x]
  | y :: ys => if x.position ≤ y.position then x :: y :: ys else y :: insertByPos x ys

/-- Sort rows by ascending position (the sessions.sort of the source). -/
def sortByPos : List QueueStatusRow → List QueueStatusRow
  | [] => []
  | x :: xs => insertByPos x (sortByPos xs)

/-- QueueService.getWaitingSessions: one row per entry of the metadata hash,
with the position recomputed, sorted by position. -/
def getWaitingSessions (st : QueueState) : List QueueStatusRow :=
  sortByPos (st.metadata.map (fun kv =>
    { sessionId := kv.1, priority := kv.2.priority, position := getQueuePosition st kv.1 }))

/-- Total number of queued entries (QueueService.getQueueLength). -/
def getQueueLength (st : QueueState) : Nat :=
  st.high.length + st.normal.length + st.low.length

/-- QueueService.clearQueue: del the three lane lists (counting their
lengths), del the metadata hash and the active set; returns the count. -/
def QS.clearQueue (st : QueueState) : Nat × QueueState :=
  (st.high.length + st.normal.length + st.low.length,
   { st with high := [], normal := [], low := [], metadata := [], active := [] })

/-- Number of lane entries carrying a given sessionId, summed over the three
lanes. -/
def laneCount (st : QueueState) (sid : String) : Nat :=
  (st.high.countP (fun e => e.sessionId = sid)) +
  (st.normal.countP (fun e => e.sessionId = sid)) +
  (st.low.countP (fun e => e.sessionId = sid))

/-- Pop order of a queue state read off the lanes directly: the high lane
oldest-first (lpush puts the newest at the head, so oldest-first is the
reverse), then the normal lane, then the low lane. -/
def laneOrder (st : QueueState) : List QueueEntry :=
  st.high.reverse ++ st.normal.reverse ++ st.low.reverse

/-- Drain the queue with a fuel bound: repeatedly getNextInQueue, collecting
the popped entries until it reports empty. -/
def drainFuel : Nat → QueueState → List QueueEntry
  | 0, _ => []
  | Nat.succ n, st =>
    match getNextInQueue st with
    | (none, _) => []
    | (some e, st2) => e :: drainFuel n st2

/-- Drain the whole queue (the fuel getQueueLength suffices). -/
def drainAll (st : QueueState) : List QueueEntry :=
  drainFuel (getQueueLength st) st

/-- Push a list of (sessionId, reason, priority) requests in order. -/
def pushList (st : QueueState) (es : List (String × String × Priority)) : QueueState :=
  es.foldl (fun s e => addToQueue s e.1 e.2.1 e.2.2) st

/-- Combined state of the ChatService layer: the chat_sessions table, the
agents table, and the QueueService state. -/
structure SysState where
  sessions : List (String × ChatSession)
  agents : List (String × AgentRow)
  queue : QueueState
deriving DecidableEq

/-- DatabaseService.updateSessionStatus: set the status of the row with this
id; the assignedAgent column is touched only when the optional argument was
supplied (outer none = argument omitted, field left unchanged). -/
def DB.updateSessionStatus (st : SysState) (sid : String) (status : SessionStatus)
    (assignedAgent : Option (Option String)) : SysState :=
  { st with sessions := updRows st.sessions sid (fun s =>
      { s with
        status := status
        assignedAgent := match assignedAgent with
          | none => s.assignedAgent
          | some a => a }) }

/-- DatabaseService.assignSessionToAgent: set assignedAgent and status agent
together on the row; returns true (the catch returns false only on a store
error, outside the modelled paths). -/
def DB.assignSessionToAgent (st : SysState) (sid aid : String) : Bool × SysState :=
  (true, { st with sessions := updRows st.sessions sid (fun s =>
    { s with assignedAgent := some aid, status := .agent }) })

/-- DatabaseService.closeSession: set the status of the row to closed.  The
assignedAgent column is not touched by the source. -/
def DB.closeSession (st : SysState) (sid : String) : SysState :=
  { st with sessions := updRows st.sessions sid (fun s => { s with status := .closed }) }

/-- DatabaseService.getAgentActiveSessions: the sessions assigned to the
agent and still in status agent. -/
def DB.getAgentActiveSessions (st : SysState) (aid : String) : List ChatSession :=
  (st.sessions.map Prod.snd).filter
    (fun s => s.assignedAgent = some aid ∧ s.status = SessionStatus.agent)

/-- DatabaseService.updateAgentStatus: set the status of the agents row. -/
def DB.updateAgentStatus (st : SysState) (aid : String) (status : AgentStatus) : SysState :=
  { st with agents := updRows st.agents aid (fun a => { a with status := status }) }

/-- ChatService.transferToQueue: look the session up (missing: log and return
with no state change), set its status to waiting, and addToQueue.  The source
applies no check on the current status of the session. -/
def CS.transferToQueue (st : SysState) (sid reason : String) (priority : Priority) :
    SysState :=
  match lookupKey st.sessions sid with
  | none => st
  | some _ =>
    let st1 := DB.updateSessionStatus st sid .waiting none
    { st1 with queue := addToQueue st1.queue sid reason priority }

/-- ChatService.closeSession: look the session up (missing: return), close the
row, remove from the queue when the prior status was waiting, and when the
session had an assigned agent whose active-session count is now zero, mark
that agent available. -/
def CS.closeSession (st : SysState) (sid : String) : SysState :=
  match lookupKey st.sessions sid with
  | none => st
  | some sess =>
    let st1 := DB.closeSession st sid
    let st2 :=
      if sess.status = SessionStatus.waiting then
        { st1 with queue := (removeFromQueue st1.queue sid).2 }
      else st1
    match sess.assignedAgent with
    | none => st2
    | some aid =>
      if (DB.getAgentActiveSessions st2 aid).length = 0 then
        DB.updateAgentStatus st2 aid .available
      else st2

/-- ChatService.assignSessionToAgent: fails only when the session row or the
agent row is missing; otherwise assign in the database, remove from the
queue, and mark the agent busy.  The source applies no capacity check and no
queue-membership check. -/
def CS.assignSessionToAgent (st : SysState) (sid aid : String) : Bool × SysState :=
  match lookupKey st.sessions sid, lookupKey st.agents aid with
  | none, _ => (false, st)
  | some _, none => (false, st)
  | some _, some _ =>
    let r := DB.assignSessionToAgent st sid aid
    if r.1 then
      let st2 := { r.2 with queue := (removeFromQueue r.2.queue sid).2 }
      (true, DB.updateAgentStatus st2 aid .busy)
    else (false, r.2)

/-- ChatService.getAvailableAgent: first agent in status available whose
active-session count is under 3 (the table order stands in for the joinedAt
ordering of getAvailableAgents). -/
def CS.getAvailableAgent (st : SysState) : Option AgentRow :=
  ((st.agents.map Prod.snd).filter (fun a => a.status = AgentStatus.available)).find?
    (fun a => (DB.getAgentActiveSessions st a.id).length < 3)

/-- ChatService.clearQueue: refuse outside development (log, report zero, no
mutation); in development delegate to QueueService.clearQueue. -/
def CS.clearQueue (env : String) (st : SysState) : Nat × SysState :=
  if env ≠ "development" then (0, st)
  else
    let r := QS.clearQueue st.queue
    (r.1, { st with queue := r.2 })

/-- A session of the in-memory ChatManager variant (messages, timestamps and
metadata omitted: not read by the modelled control paths). -/
structure CMSession where
  id : String
  status : SessionStatus
  assignedAgent : Option String
deriving DecidableEq

/-- An agent of the in-memory ChatManager variant. -/
structure CMAgent where
  id : String
  status : AgentStatus
  activeSessions : List String
deriving DecidableEq

/-- A transferQueue entry of the in-memory ChatManager variant. -/
structure CMEntry where
  sessionId : String
  reason : String
  priority : Priority
deriving DecidableEq

/-- State of the in-memory ChatManager: the sessions map, the agents map and
the single transferQueue array. -/
structure CMState where
  sessions : List (String × CMSession)
  agents : List (String × CMAgent)
  transferQueue : List CMEntry
deriving DecidableEq

/-- ChatManager.removeFromQueue: findIndex of the sessionId and splice it
out; reports whether an entry was found. -/
def CM.removeFromQueue (st : CMState) (sid : String) : Bool × CMState :=
  let r := removeFirst (fun e => e.sessionId = sid) st.transferQueue
  (r.1, { st with transferQueue := r.2 })

/-- Agent cleanup step of ChatManager.closeSession: splice the session out of
the agent's activeSessions (indexOf + splice of the first occurrence) and
mark the agent available when the workload became empty. -/
def cmCloseAgent (ag : CMAgent) (sid : String) : CMAgent :=
  let acts := ag.activeSessions.erase sid
  if acts.isEmpty then { ag with activeSessions := acts, status := AgentStatus.available }
  else { ag with activeSessions := acts }

/-- ChatManager.closeSession: look the session up (missing: log and return),
set its status to closed; when it had an assigned agent that still exists,
splice the session out of that agent's activeSessions and mark the agent
available when the workload became empty; finally always try to remove the
session from the transferQueue. -/
def CM.closeSession (st : CMState) (sid : String) : CMState :=
  match lookupKey st.sessions sid with
  | none => st
  | some sess =>
    let st1 := { st with sessions := updRows st.sessions sid (fun s =>
        { s with status := SessionStatus.closed }) }
    let st2 :=
      match sess.assignedAgent with
      | none => st1
      | some aid =>
        match lookupKey st1.agents aid with
        | none => st1
        | some ag => { st1 with agents := updRows st1.agents aid (fun _ => cmCloseAgent ag sid) }
    (CM.removeFromQueue st2 sid).2

/-- Combined length of the strictly-higher-priority lanes (the two length
additions of getQueuePosition, read off the claim's formula). -/
def higherLanesLen (st : QueueState) : Priority → Nat
  | .high => 0
  | .normal => st.high.length
  | .low => st.high.length + st.normal.length

theorem setLane_metadata (st : QueueState) (p : Priority) (l : List QueueEntry) :
    (setLane st p l).metadata = st.metadata := by
  cases p <;> rfl

theorem setLane_active (st : QueueState) (p : Priority) (l : List QueueEntry) :
    (setLane st p l).active = st.active := by
  cases p <;> rfl

theorem lookupKey_hdel_self {α : Type} (m : List (String × α)) (k : String) :
    lookupKey (hdel m k) k = none := by
  induction m with
  | nil => rfl
  | cons p rest ih =>
    obtain ⟨k', v'⟩ := p
    by_cases h : k' = k
    · simpa [hdel, h] using ih
    · simpa [hdel, h, lookupKey] using ih

theorem lookupKey_eq_none_forall {α : Type} {m : List (String × α)} {k : String}
    (h : lookupKey m k = none) : ∀ p ∈ m, p.1 ≠ k := by
  induction m with
  | nil => intro p hp; cases hp
  | cons q rest ih =>
    obtain ⟨k', v'⟩ := q
    intro p hp
    by_cases hk : k' = k
    · simp [lookupKey, hk] at h
    · rcases List.mem_cons.mp hp with h1 | h1
      · subst h1; exact hk
      · exact ih (by simpa [lookupKey, hk] using h) p h1

theorem mem_hdel_ne {α : Type} (m : List (String × α)) (k : String) :
    ∀ p ∈ hdel m k, p.1 ≠ k := by
  induction m with
  | nil => intro p hp; cases hp
  | cons q rest ih =>
    obtain ⟨k', v'⟩ := q
    intro p hp
    by_cases h : k' = k
    · exact ih p (by simpa [hdel, h] using hp)
    · rcases List.mem_cons.mp (by simpa [hdel, h] using hp) with h1 | h1
      · subst h1; exact h
      · exact ih p h1

theorem lookupKey_hset_self {α : Type} (m : List (String × α)) (k : String) (v : α) :
    lookupKey (hset m k v) k = some v := by
  induction m with
  | nil => simp [hset, lookupKey]
  | cons q rest ih =>
    obtain ⟨k', v'⟩ := q
    by_cases h : k' = k
    · simp [hset, h, lookupKey]
    · simpa [hset, h, lookupKey] using ih

theorem lookupKey_mem {α : Type} {m : List (String × α)} {k : String} {v : α}
    (h : lookupKey m k = some v) : (k, v) ∈ m := by
  induction m with
  | nil => cases h
  | cons q rest ih =>
    obtain ⟨k', v'⟩ := q
    by_cases hk : k' = k
    · subst hk
      simp [lookupKey] at h
      subst h
      exact List.mem_cons_self _ _
    · exact List.mem_cons_of_mem _ (ih (by simpa [lookupKey, hk] using h))

theorem not_mem_srem (s : List String) (k : String) : k ∉ srem s k := by
  simp [srem]

theorem lookupKey_updRows_self {α : Type} (l : List (String × α)) (k : String) (f : α → α) :
    lookupKey (updRows l k f) k = (lookupKey l k).map f := by
  induction l with
  | nil => rfl
  | cons q rest ih =>
    obtain ⟨k', v'⟩ := q
    by_cases h : k' = k
    · subst h
      simp [updRows, lookupKey]
    · simp [updRows, lookupKey, h, ih]

theorem updRows_updRows {α : Type} (l : List (String × α)) (k : String) (f g : α → α) :
    updRows (updRows l k g) k f = updRows l k (fun v => f (g v)) := by
  induction l with
  | nil => rfl
  | cons q rest ih =>
    obtain ⟨k', v'⟩ := q
    by_cases h : k' = k
    · subst h
      simp [updRows, ih]
    · simp [updRows, h, ih]

theorem updRows_congr {α : Type} (l : List (String × α)) (k : String) (f g : α → α)
    (h : ∀ v, f v = g v) : updRows l k f = updRows l k g := by
  induction l with
  | nil => rfl
  | cons q rest ih =>
    obtain ⟨k', v'⟩ := q
    by_cases hk : k' = k
    · subst hk
      simp [updRows, h, ih]
    · simp [updRows, hk, ih]

theorem removeFirst_of_forall_not {α : Type} (p : α → Bool) (l : List α)
    (h : ∀ x ∈ l, p x = false) : removeFirst p l = (false, l) := by
  induction l with
  | nil => rfl
  | cons x xs ih =>
    have hx : p x = false := h x (List.mem_cons_self _ _)
    have := ih (fun y hy => h y (List.mem_cons_of_mem _ hy))
    simp [removeFirst, hx, this]

theorem removeFirst_no_more {α : Type} (p : α → Bool) (l : List α)
    (h : l.countP p ≤ 1) : ∀ x ∈ (removeFirst p l).2, p x = false := by
  induction l with
  | nil => intro x hx; cases hx
  | cons y ys ih =>
    by_cases hy : p y = true
    · have hz : ys.countP p = 0 := by
        have := h
        rw [List.countP_cons_of_pos p _ hy] at this
        omega
      intro x hx
      have hmem : x ∈ ys := by simpa [removeFirst, hy] using hx
      have := List.countP_eq_zero.mp hz x hmem
      simpa using this
    · have hy' : p y = false := by simpa using hy
      have hcount : ys.countP p ≤ 1 := by
        have := h
        rwa [List.countP_cons_of_neg p _ (by simp [hy'])] at this
      intro x hx
      rcases List.mem_cons.mp (by simpa [removeFirst, hy'] using hx) with h1 | h1
      · subst h1; exact hy'
      · exact ih hcount x h1

theorem mem_insertByPos (x y : QueueStatusRow) (l : List QueueStatusRow) :
    y ∈ insertByPos x l ↔ y = x ∨ y ∈ l := by
  induction l with
  | nil => simp [insertByPos]
  | cons z zs ih =>
    by_cases h : x.position ≤ z.position
    · simp [insertByPos, h, List.mem_cons]
    · simp [insertByPos, h, List.mem_cons, ih]
      tauto

theorem mem_sortByPos (y : QueueStatusRow) (l : List QueueStatusRow) :
    y ∈ sortByPos l ↔ y ∈ l := by
  induction l with
  | nil => simp [sortByPos]
  | cons z zs ih =>
    simp [sortByPos, mem_insertByPos, ih, List.mem_cons]

theorem findIdx?_none_of {α : Type} (p : α → Bool) (l : List α)
    (h : ∀ x ∈ l, p x = false) : l.findIdx? p = none := by
  rw [List.findIdx?_eq_none_iff]
  intro x hx
  simp [h x hx]

theorem setLane_dbOk (st : QueueState) (p : Priority) (l : List QueueEntry) :
    (setLane st p l).dbOk = st.dbOk := by
  cases p <;> rfl

theorem laneCount_addToQueue (qst : QueueState) (sid reason : String) (p : Priority) :
    laneCount (addToQueue qst sid reason p) sid = laneCount qst sid + 1 := by
  cases p <;> simp [addToQueue, setLane, getLane, laneCount, List.countP_cons] <;> omega

theorem metadata_addToQueue (qst : QueueState) (sid reason : String) (p : Priority) :
    lookupKey (addToQueue qst sid reason p).metadata sid
      = some { sessionId := sid, reason := reason, priority := p } := by
  simp [addToQueue, setLane_metadata, lookupKey_hset_self]

def c1Start : SysState :=
  { sessions := [("S", { id := "S", userId := "u", status := .bot, assignedAgent := none })]
    agents := []
    queue := emptyQueue }

def c1After : SysState :=
  CS.transferToQueue (CS.transferToQueue c1Start "S" "billing" .high) "S" "billing" .normal

/-- C1 counterexample: escalating session S with priority high and then with
priority normal, before any claim, does not leave a single queue entry for S:
the high lane still holds the first entry and the normal lane holds the
second, two entries for S across the lanes. -/
theorem escalate_twice_leaves_two_entries :
    laneCount c1After.queue "S" = 2
    ∧ c1After.queue.high = [{ sessionId := "S", reason := "billing", priority := .high }]
    ∧ c1After.queue.normal = [{ sessionId := "S", reason := "billing", priority := .normal }] := by
  decide

/-- C1 (amended): a second escalate of a session already waiting in the queue
is not an update in place of the lane entry: transferToQueue of any existing
session always pushes one more entry onto the target lane (so the claim's
scenario ends with two lane entries for S); only the queue-metadata hash
entry is replaced in place with the new reason and priority. -/
theorem escalate_requeue_pushes_again (st : SysState) (sid reason : String)
    (p : Priority) (sess : ChatSession)
    (h : lookupKey st.sessions sid = some sess) :
    laneCount (CS.transferToQueue st sid reason p).queue sid = laneCount st.queue sid + 1
    ∧ lookupKey (CS.transferToQueue st sid reason p).queue.metadata sid
        = some { sessionId := sid, reason := reason, priority := p } := by
  unfold CS.transferToQueue
  rw [h]
  exact ⟨laneCount_addToQueue _ _ _ _, metadata_addToQueue _ _ _ _⟩

def w1State : SysState :=
  { sessions := [("S", { id := "S", userId := "u", status := .waiting, assignedAgent := none })]
    agents := []
    queue := addToQueue emptyQueue "S" "billing" .high }

/-- C1 witness: the amended theorem at a session already waiting in the high
lane, re-escalated with priority normal. -/
theorem escalate_requeue_pushes_again_witness :
    laneCount (CS.transferToQueue w1State "S" "billing" .normal).queue "S"
        = laneCount w1State.queue "S" + 1
    ∧ lookupKey (CS.transferToQueue w1State "S" "billing" .normal).queue.metadata "S"
        = some { sessionId := "S", reason := "billing", priority := .normal } :=
  escalate_requeue_pushes_again w1State "S" "billing" .normal
    { id := "S", userId := "u", status := .waiting, assignedAgent := none } (by decide)

def c2Start : SysState :=
  { sessions := [("S", { id := "S", userId := "u", status := .closed, assignedAgent := none })]
    agents := []
    queue := emptyQueue }

/-- C2 counterexample: escalating the closed session S is not rejected as a
failure: transferToQueue moves its status to waiting and pushes an entry for
S into the normal lane, so Closed is not terminal and a closed session can
enter a priority lane. -/
theorem closed_session_escalates :
    (lookupKey (CS.transferToQueue c2Start "S" "help" .normal).sessions "S").map
        ChatSession.status = some SessionStatus.waiting
    ∧ laneCount (CS.transferToQueue c2Start "S" "help" .normal).queue "S" = 1 := by
  decide

/-- C2 (amended): transferToQueue refuses (no-op) only when the session does
not exist; for an existing session of any status, closed included, it sets
the status to waiting and pushes one more entry onto the target lane, so
Closed is not a terminal state under escalation. -/
theorem transfer_checks_existence_only (st : SysState) (sid reason : String) (p : Priority) :
    (lookupKey st.sessions sid = none → CS.transferToQueue st sid reason p = st)
    ∧ (∀ sess, lookupKey st.sessions sid = some sess →
        (lookupKey (CS.transferToQueue st sid reason p).sessions sid).map
            ChatSession.status = some SessionStatus.waiting
        ∧ laneCount (CS.transferToQueue st sid reason p).queue sid
            = laneCount st.queue sid + 1) := by
  constructor
  · intro h
    unfold CS.transferToQueue
    rw [h]
  · intro sess h
    unfold CS.transferToQueue
    rw [h]
    constructor
    · show (lookupKey (DB.updateSessionStatus st sid .waiting none).sessions sid).map
          ChatSession.status = some SessionStatus.waiting
      unfold DB.updateSessionStatus
      simp [lookupKey_updRows_self, h]
    · exact laneCount_addToQueue _ _ _ _

def w2State : SysState :=
  { sessions := [("T", { id := "T", userId := "v", status := .closed, assignedAgent := none })]
    agents := []
    queue := emptyQueue }

/-- C2 witness: the amended theorem applied to a closed session. -/
theorem transfer_checks_existence_only_witness :
    (lookupKey (CS.transferToQueue w2State "T" "help" .high).sessions "T").map
        ChatSession.status = some SessionStatus.waiting
    ∧ laneCount (CS.transferToQueue w2State "T" "help" .high).queue "T"
        = laneCount w2State.queue "T" + 1 :=
  (transfer_checks_existence_only w2State "T" "help" .high).2
    { id := "T", userId := "v", status := .closed, assignedAgent := none } (by decide)

theorem closeSession_sessions (st : SysState) (sid : String) (sess : ChatSession)
    (h : lookupKey st.sessions sid = some sess) :
    (CS.closeSession st sid).sessions
      = updRows st.sessions sid (fun s => { s with status := SessionStatus.closed }) := by
  unfold CS.closeSession
  rw [h]
  cases hA : sess.assignedAgent with
  | none =>
    simp [DB.closeSession, apply_ite SysState.sessions, hA]
  | some aid =>
    simp [DB.closeSession, DB.updateAgentStatus, apply_ite SysState.sessions, hA]

def c4Start : SysState :=
  { sessions := [("S", { id := "S", userId := "u", status := .agent, assignedAgent := some "A" })]
    agents := [("A", { id := "A", name := "Ann", status := .busy })]
    queue := emptyQueue }

/-- C4 counterexample: closing the WithAgent session S produces status closed
with assignedAgent still some "A": a non-null assignedAgent with a status
other than WithAgent, so the claimed iff invariant fails after Close. -/
theorem close_leaves_assignment :
    (lookupKey (CS.closeSession c4Start "S").sessions "S").map
        (fun s => (s.status, s.assignedAgent))
      = some (SessionStatus.closed, some "A") := by
  decide

/-- C4 (amended): assignment does set the agent reference and the agent
status together, but Close does not clear the assignment: closeSession sets
the status to closed and leaves assignedAgent untouched, so a closed session
keeps its non-null assignedAgent and the iff holds only in the assignment
direction. -/
theorem assign_sets_pair_close_keeps_agent (st : SysState) (sid aid : String) :
    (∀ s a, lookupKey st.sessions sid = some s → lookupKey st.agents aid = some a →
      lookupKey (CS.assignSessionToAgent st sid aid).2.sessions sid
        = some { s with assignedAgent := some aid, status := .agent })
    ∧ (∀ sess ag, lookupKey st.sessions sid = some sess → sess.assignedAgent = some ag →
      (lookupKey (CS.closeSession st sid).sessions sid).map
          (fun s => (s.status, s.assignedAgent))
        = some (SessionStatus.closed, some ag)) := by
  constructor
  · intro s a hs ha
    unfold CS.assignSessionToAgent
    rw [hs, ha]
    simp [DB.assignSessionToAgent, DB.updateAgentStatus, lookupKey_updRows_self, hs]
  · intro sess ag hs hA
    rw [closeSession_sessions st sid sess hs]
    simp [lookupKey_updRows_self, hs, hA]

def w4State : SysState :=
  { sessions := [("S", { id := "S", userId := "u", status := .waiting, assignedAgent := none })
    , ("T", { id := "T", userId := "v", status := .agent, assignedAgent := some "B" })]
    agents := [("B", { id := "B", name := "Bo", status := .busy })]
    queue := emptyQueue }

/-- C4 witness: the amended theorem at a concrete state, for both the
assignment direction and the close direction. -/
theorem assign_sets_pair_close_keeps_agent_witness :
    lookupKey (CS.assignSessionToAgent w4State "S" "B").2.sessions "S"
      = some { id := "S", userId := "u", status := .agent, assignedAgent := some "B" }
    ∧ (lookupKey (CS.closeSession w4State "T").sessions "T").map
        (fun s => (s.status, s.assignedAgent))
      = some (SessionStatus.closed, some "B") :=
  ⟨(assign_sets_pair_close_keeps_agent w4State "S" "B").1
      { id := "S", userId := "u", status := .waiting, assignedAgent := none }
      { id := "B", name := "Bo", status := .busy } (by decide) (by decide),
   (assign_sets_pair_close_keeps_agent w4State "T" "B").2
      { id := "T", userId := "v", status := .agent, assignedAgent := some "B" }
      "B" (by decide) (by decide)⟩

def c7Start : SysState :=
  { sessions :=
      [("s1", { id := "s1", userId := "u1", status := .agent, assignedAgent := some "A" }),
       ("s2", { id := "s2", userId := "u2", status := .agent, assignedAgent := some "A" }),
       ("s3", { id := "s3", userId := "u3", status := .agent, assignedAgent := some "A" }),
       ("s4", { id := "s4", userId := "u4", status := .bot, assignedAgent := none })]
    agents := [("A", { id := "A", name := "Ann", status := .busy })]
    queue := emptyQueue }

/-- C7 counterexample: agent A already carries the capacity-bound workload of
3 and session s4 is not queued (position 0), yet assignSessionToAgent reports
success and raises A's workload to 4: neither AgentAtCapacity nor NotInQueue
is enforced by the operation. -/
theorem claim_at_capacity_succeeds :
    (DB.getAgentActiveSessions c7Start "A").length = 3
    ∧ getQueuePosition c7Start.queue "s4" = 0
    ∧ (CS.assignSessionToAgent c7Start "s4" "A").1 = true
    ∧ (DB.getAgentActiveSessions (CS.assignSessionToAgent c7Start "s4" "A").2 "A").length = 4 := by
  decide

/-- C7 (amended): assignSessionToAgent fails only when the session row or the
agent row does not exist; it checks neither the agent's capacity nor the
session's queue membership, so a direct claim succeeds even at or beyond the
capacity bound and even for an unqueued session.  The bound of 3 is applied
only by getAvailableAgent when auto-selecting an agent. -/
theorem assign_existence_checks_only (st : SysState) (sid aid : String) :
    (lookupKey st.sessions sid = none → CS.assignSessionToAgent st sid aid = (false, st))
    ∧ (∀ s, lookupKey st.sessions sid = some s → lookupKey st.agents aid = none →
        CS.assignSessionToAgent st sid aid = (false, st))
    ∧ (∀ s a, lookupKey st.sessions sid = some s → lookupKey st.agents aid = some a →
        (CS.assignSessionToAgent st sid aid).1 = true
        ∧ lookupKey (CS.assignSessionToAgent st sid aid).2.sessions sid
            = some { s with assignedAgent := some aid, status := .agent })
    ∧ (∀ a, CS.getAvailableAgent st = some a →
        (DB.getAgentActiveSessions st a.id).length < 3) := by
  refine ⟨?_, ?_, ?_, ?_⟩
  · intro h
    unfold CS.assignSessionToAgent
    rw [h]
  · intro s hs hn
    unfold CS.assignSessionToAgent
    rw [hs, hn]
  · intro s a hs ha
    unfold CS.assignSessionToAgent
    rw [hs, ha]
    constructor
    · simp [DB.assignSessionToAgent]
    · simp [DB.assignSessionToAgent, DB.updateAgentStatus, lookupKey_updRows_self, hs]
  · intro a hfind
    unfold CS.getAvailableAgent at hfind
    have := List.find?_some hfind
    exact of_decide_eq_true this

/-- C7 witness: the amended theorem at a concrete state where the target
agent is at capacity and the session is unqueued, and the claim still
succeeds. -/
theorem assign_existence_checks_only_witness :
    (CS.assignSessionToAgent c7Start "s4" "A").1 = true
    ∧ lookupKey (CS.assignSessionToAgent c7Start "s4" "A").2.sessions "s4"
        = some { id := "s4", userId := "u4", status := .agent, assignedAgent := some "A" } :=
  ((assign_existence_checks_only c7Start "s4" "A").2.2.1
      { id := "s4", userId := "u4", status := .bot, assignedAgent := none }
      { id := "A", name := "Ann", status := .busy } (by decide) (by decide))

def c8Start : QueueState :=
  { high := [{ sessionId := "s1", reason := "help", priority := .high }]
    normal := []
    low := []
    metadata := [("s1", { sessionId := "s1", reason := "help", priority := .high })]
    active := ["s1"]
    dbOk := false }

def c8After : QueueState :=
  { high := [], normal := [], low := [], metadata := [], active := [], dbOk := false }

/-- C8 counterexample: with the durable store unreachable, removing the
queued session s1 raises inside the body, but the catch swallows the error
into a plain false return and the queue-store mutations already performed
remain applied: the error is not surfaced and the state is not left
unchanged. -/
theorem remove_swallows_store_error :
    removeFromQueueBody c8Start "s1" = Except.error ("store unavailable", c8After)
    ∧ removeFromQueue c8Start "s1" = (false, c8After)
    ∧ c8After ≠ c8Start := by
  refine ⟨rfl, rfl, by decide⟩

/-- C8 (amended): a durable-store failure during removeFromQueue is caught
and reported to the caller as a plain false return, indistinguishable from
the session not being queued, and the queue-store mutations performed before
the failing store write (lane removal, metadata and active-set cleanup) are
kept, not rolled back: the in-memory/queue state is changed and the error is
silently swallowed into a normal return value. -/
theorem remove_store_error_swallowed (st : QueueState) (sid : String) (m : QueueEntry)
    (hdb : st.dbOk = false) (hm : lookupKey st.metadata sid = some m) :
    removeFromQueueBody st sid
      = Except.error ("store unavailable", (removeFromQueue st sid).2)
    ∧ (removeFromQueue st sid).1 = false
    ∧ lookupKey (removeFromQueue st sid).2.metadata sid = none
    ∧ (removeFromQueue st sid).2.dbOk = false := by
  unfold removeFromQueue removeFromQueueBody
  rw [hm, hdb]
  simp [setLane_metadata, setLane_active, setLane_dbOk, lookupKey_hdel_self, hdb]

/-- C8 witness: the amended theorem at the concrete state with the durable
store down and s1 queued. -/
theorem remove_store_error_swallowed_witness :
    removeFromQueueBody c8Start "s1"
      = Except.error ("store unavailable", (removeFromQueue c8Start "s1").2)
    ∧ (removeFromQueue c8Start "s1").1 = false
    ∧ lookupKey (removeFromQueue c8Start "s1").2.metadata "s1" = none
    ∧ (removeFromQueue c8Start "s1").2.dbOk = false :=
  remove_store_error_swallowed c8Start "s1"
    { sessionId := "s1", reason := "help", priority := .high } (by decide) (by decide)

/-- C9: clearQueue is gated by the environment flag: outside development it
performs no mutation and reports zero affected entries; in development it
empties all three lanes (and the metadata and active set) and returns the
total number of removed lane entries. -/
theorem clearQueue_env_gated (env : String) (st : SysState) :
    (env ≠ "development" → CS.clearQueue env st = (0, st))
    ∧ (env = "development" →
        CS.clearQueue env st
          = (getQueueLength st.queue,
             { st with queue :=
                { st.queue with
                    high := [], normal := [], low := [], metadata := [], active := [] } })) := by
  constructor
  · intro h
    simp [CS.clearQueue, h]
  · intro h
    subst h
    simp [CS.clearQueue, QS.clearQueue, getQueueLength]

def w9State : SysState :=
  { sessions := []
    agents := []
    queue := addToQueue (addToQueue emptyQueue "a" "r" .high) "b" "r" .low }

/-- C9 witness: the gating theorem applied in a production and in a
development environment at a concrete two-entry queue. -/
theorem clearQueue_env_gated_witness :
    CS.clearQueue "production" w9State = (0, w9State)
    ∧ CS.clearQueue "development" w9State
        = (getQueueLength w9State.queue,
           { w9State with queue :=
              { w9State.queue with
                  high := [], normal := [], low := [], metadata := [], active := [] } }) :=
  ⟨(clearQueue_env_gated "production" w9State).1 (by decide),
   (clearQueue_env_gated "development" w9State).2 rfl⟩

/-- C5: PositionOf is 0 for a session absent from every lane, and for a
queued session found at head index i of its metadata lane it equals the
count of entries in the same lane ahead of it including itself (the length
of the lane suffix from index i on: lpush puts newer entries at the head, so
exactly the entries at index i and beyond pop no later than the session)
plus the full length of all strictly-higher-priority lanes; in the claim's
scenario High=[A], Normal=[B,C], PositionOf(C) = 1 + 2 = 3. -/
theorem position_formula (st : QueueState) (sid : String) :
    ((∀ p : Priority, ∀ e ∈ getLane st p, e.sessionId ≠ sid) →
        getQueuePosition st sid = 0)
    ∧ (∀ m i, lookupKey st.metadata sid = some m →
        (getLane st m.priority).findIdx? (fun e => e.sessionId = sid) = some i →
        getQueuePosition st sid
          = ((getLane st m.priority).drop i).length + higherLanesLen st m.priority)
    ∧ getQueuePosition
        (pushList emptyQueue [("A", "r", .high), ("B", "r", .normal), ("C", "r", .normal)])
        "C" = 3 := by
  refine ⟨?_, ?_, by decide⟩
  · intro habs
    cases hm : lookupKey st.metadata sid with
    | none => simp [getQueuePosition, hm]
    | some m =>
      have hidx : (getLane st m.priority).findIdx? (fun e => e.sessionId = sid) = none := by
        refine findIdx?_none_of _ _ ?_
        intro e he
        simpa using habs m.priority e he
      simp [getQueuePosition, hm, hidx]
  · intro m i hm hi
    cases hp : m.priority
    all_goals
      rw [hp] at hi
      simp only [getLane] at hi
      simp [getQueuePosition, hm, hi, hp, higherLanesLen, getLane, List.length_drop]
    all_goals omega

def w5State : QueueState :=
  pushList emptyQueue [("A", "r", .high), ("B", "r", .normal), ("C", "r", .normal)]

/-- C5 witness: the formula applied to the claim's scenario state, where C
sits at head index 0 of the normal lane. -/
theorem position_formula_witness :
    getQueuePosition w5State "C"
      = ((getLane w5State Priority.normal).drop 0).length
        + higherLanesLen w5State Priority.normal :=
  (position_formula w5State "C").2.1
    { sessionId := "C", reason := "r", priority := .normal } 0 (by decide) (by decide)

theorem removeFromQueue_eq_of_none (st : QueueState) (sid : String)
    (hm : lookupKey st.metadata sid = none) :
    removeFromQueue st sid = (false, st) := by
  unfold removeFromQueue removeFromQueueBody
  rw [hm]

theorem removeFromQueue_cleanup (st : QueueState) (sid : String) (m : QueueEntry)
    (hm : lookupKey st.metadata sid = some m) :
    (removeFromQueue st sid).2.metadata = hdel st.metadata sid
    ∧ (removeFromQueue st sid).2.active = srem st.active sid := by
  unfold removeFromQueue removeFromQueueBody
  rw [hm]
  by_cases hdb : st.dbOk <;> simp [hdb, setLane_metadata, setLane_active]

/-- C10: whatever removeFromQueue(s) returns, afterwards the metadata entry
for s is gone and s is not in the active set (for the early not-found return
this needs the reachable-state hypothesis that active members have metadata),
a subsequent getQueuePosition(s) returns 0, s appears in no row of
getWaitingSessions, and a second removeFromQueue(s) returns false and leaves
the state unchanged. -/
theorem remove_cleans_unconditionally (st : QueueState) (sid : String)
    (hwf : sid ∈ st.active → (lookupKey st.metadata sid).isSome) :
    lookupKey (removeFromQueue st sid).2.metadata sid = none
    ∧ sid ∉ (removeFromQueue st sid).2.active
    ∧ getQueuePosition (removeFromQueue st sid).2 sid = 0
    ∧ (∀ row ∈ getWaitingSessions (removeFromQueue st sid).2, row.sessionId ≠ sid)
    ∧ removeFromQueue (removeFromQueue st sid).2 sid = (false, (removeFromQueue st sid).2) := by
  cases hm : lookupKey st.metadata sid with
  | none =>
    have hR : removeFromQueue st sid = (false, st) := removeFromQueue_eq_of_none st sid hm
    rw [hR]
    refine ⟨hm, ?_, ?_, ?_, removeFromQueue_eq_of_none st sid hm⟩
    · intro hmem
      have := hwf hmem
      rw [hm] at this
      simp at this
    · simp [getQueuePosition, hm]
    · intro row hrow
      have hrow' := (mem_sortByPos row _).mp hrow
      obtain ⟨kv, hkv, hrfl⟩ := List.mem_map.mp hrow'
      have : kv.1 ≠ sid := lookupKey_eq_none_forall hm kv hkv
      simpa [← hrfl] using this
  | some m =>
    obtain ⟨hmd, hac⟩ := removeFromQueue_cleanup st sid m hm
    have hnone : lookupKey (removeFromQueue st sid).2.metadata sid = none := by
      rw [hmd]
      exact lookupKey_hdel_self _ _
    refine ⟨hnone, ?_, ?_, ?_, removeFromQueue_eq_of_none _ _ hnone⟩
    · rw [hac]
      exact not_mem_srem _ _
    · simp [getQueuePosition, hnone]
    · intro row hrow
      have hrow' := (mem_sortByPos row _).mp hrow
      obtain ⟨kv, hkv, hrfl⟩ := List.mem_map.mp hrow'
      rw [hmd] at hkv
      have : kv.1 ≠ sid := mem_hdel_ne st.metadata sid kv hkv
      simpa [← hrfl] using this

def w10State : QueueState :=
  pushList emptyQueue [("s1", "r", .normal), ("s2", "r", .high)]

/-- C10 witness: the cleanup theorem applied to a concrete queue holding s1
and s2, removing s1. -/
theorem remove_cleans_unconditionally_witness :
    lookupKey (removeFromQueue w10State "s1").2.metadata "s1" = none
    ∧ "s1" ∉ (removeFromQueue w10State "s1").2.active
    ∧ getQueuePosition (removeFromQueue w10State "s1").2 "s1" = 0
    ∧ removeFromQueue (removeFromQueue w10State "s1").2 "s1"
        = (false, (removeFromQueue w10State "s1").2) :=
  ⟨(remove_cleans_unconditionally w10State "s1" (by decide)).1,
   (remove_cleans_unconditionally w10State "s1" (by decide)).2.1,
   (remove_cleans_unconditionally w10State "s1" (by decide)).2.2.1,
   (remove_cleans_unconditionally w10State "s1" (by decide)).2.2.2.2⟩

theorem rpop_concat (l : List QueueEntry) (e : QueueEntry) :
    rpop (l ++ [e]) = some (e, l) := by
  simp [rpop, List.getLast?_concat, List.dropLast_concat]

theorem cleanupAfterPop_high (st : QueueState) (sid : String) :
    (cleanupAfterPop st sid).high = st.high := rfl

theorem getNext_of_high (st : QueueState) (l : List QueueEntry) (e : QueueEntry)
    (h : st.high = l ++ [e]) :
    getNextInQueue st = (some e, cleanupAfterPop { st with high := l } e.sessionId) := by
  unfold getNextInQueue
  rw [h, rpop_concat]

theorem getNext_of_normal (st : QueueState) (l : List QueueEntry) (e : QueueEntry)
    (hh : st.high = []) (h : st.normal = l ++ [e]) :
    getNextInQueue st = (some e, cleanupAfterPop { st with normal := l } e.sessionId) := by
  unfold getNextInQueue
  rw [hh, h, rpop_concat]
  rfl

theorem getNext_of_low (st : QueueState) (l : List QueueEntry) (e : QueueEntry)
    (hh : st.high = []) (hn : st.normal = []) (h : st.low = l ++ [e]) :
    getNextInQueue st = (some e, cleanupAfterPop { st with low := l } e.sessionId) := by
  unfold getNextInQueue
  rw [hh, hn, h, rpop_concat]
  rfl

theorem getNext_of_empty (st : QueueState)
    (hh : st.high = []) (hn : st.normal = []) (hl : st.low = []) :
    getNextInQueue st = (none, st) := by
  unfold getNextInQueue
  rw [hh, hn, hl]
  rfl

theorem drainFuel_eq (n : Nat) : ∀ st : QueueState, getQueueLength st ≤ n →
    drainFuel n st = laneOrder st := by
  induction n with
  | zero =>
    intro st h
    unfold getQueueLength at h
    have hh : st.high = [] := by
      have : st.high.length = 0 := by omega
      simpa using this
    have hn : st.normal = [] := by
      have : st.normal.length = 0 := by omega
      simpa using this
    have hl : st.low = [] := by
      have : st.low.length = 0 := by omega
      simpa using this
    simp [drainFuel, laneOrder, hh, hn, hl]
  | succ n ih =>
    intro st h
    rcases List.eq_nil_or_concat st.high with hh | ⟨l, e, hh⟩
    · rcases List.eq_nil_or_concat st.normal with hn | ⟨l, e, hn⟩
      · rcases List.eq_nil_or_concat st.low with hl | ⟨l, e, hl⟩
        · simp [drainFuel, getNext_of_empty st hh hn hl, laneOrder, hh, hn, hl]
        · rw [List.concat_eq_append] at hl
          have hstep := getNext_of_low st l e hh hn hl
          have hlen : getQueueLength (cleanupAfterPop { st with low := l } e.sessionId) ≤ n := by
            unfold getQueueLength at h ⊢
            simp [cleanupAfterPop, hl] at h ⊢
            omega
          simp only [drainFuel, hstep]
          rw [ih _ hlen]
          simp [laneOrder, cleanupAfterPop, hh, hn, hl]
      · rw [List.concat_eq_append] at hn
        have hstep := getNext_of_normal st l e hh hn
        have hlen : getQueueLength (cleanupAfterPop { st with normal := l } e.sessionId) ≤ n := by
          unfold getQueueLength at h ⊢
          simp [cleanupAfterPop, hn] at h ⊢
          omega
        simp only [drainFuel, hstep]
        rw [ih _ hlen]
        simp [laneOrder, cleanupAfterPop, hh, hn]
    · rw [List.concat_eq_append] at hh
      have hstep := getNext_of_high st l e hh
      have hlen : getQueueLength (cleanupAfterPop { st with high := l } e.sessionId) ≤ n := by
        unfold getQueueLength at h ⊢
        simp [cleanupAfterPop, hh] at h ⊢
        omega
      simp only [drainFuel, hstep]
      rw [ih _ hlen]
      simp [laneOrder, cleanupAfterPop, hh]

theorem drainAll_eq_laneOrder (st : QueueState) : drainAll st = laneOrder st :=
  drainFuel_eq (getQueueLength st) st (Nat.le_refl _)

/-- Entries of a push-request list that target one priority, as queue
entries, in request order. -/
def laneSelect (es : List (String × String × Priority)) (p : Priority) : List QueueEntry :=
  (es.filter (fun e => e.2.2 = p)).map
    (fun e => { sessionId := e.1, reason := e.2.1, priority := e.2.2 })

theorem pushList_lanes (es : List (String × String × Priority)) : ∀ st : QueueState,
    (pushList st es).high = (laneSelect es .high).reverse ++ st.high
    ∧ (pushList st es).normal = (laneSelect es .normal).reverse ++ st.normal
    ∧ (pushList st es).low = (laneSelect es .low).reverse ++ st.low := by
  induction es with
  | nil => intro st; simp [pushList, laneSelect]
  | cons e rest ih =>
    intro st
    have hstep : pushList st (e :: rest) = pushList (addToQueue st e.1 e.2.1 e.2.2) rest := by
      simp [pushList]
    obtain ⟨ihh, ihn, ihl⟩ := ih (addToQueue st e.1 e.2.1 e.2.2)
    cases hp : e.2.2 with
    | high =>
      refine ⟨?_, ?_, ?_⟩
      · rw [hstep, ihh]; simp [laneSelect, hp, addToQueue, setLane, getLane]
      · rw [hstep, ihn]; simp [laneSelect, hp, addToQueue, setLane, getLane]
      · rw [hstep, ihl]; simp [laneSelect, hp, addToQueue, setLane, getLane]
    | normal =>
      refine ⟨?_, ?_, ?_⟩
      · rw [hstep, ihh]; simp [laneSelect, hp, addToQueue, setLane, getLane]
      · rw [hstep, ihn]; simp [laneSelect, hp, addToQueue, setLane, getLane]
      · rw [hstep, ihl]; simp [laneSelect, hp, addToQueue, setLane, getLane]
    | low =>
      refine ⟨?_, ?_, ?_⟩
      · rw [hstep, ihh]; simp [laneSelect, hp, addToQueue, setLane, getLane]
      · rw [hstep, ihn]; simp [laneSelect, hp, addToQueue, setLane, getLane]
      · rw [hstep, ihl]; simp [laneSelect, hp, addToQueue, setLane, getLane]

/-- C3: getNextInQueue serves the high lane before the normal lane before the
low lane, FIFO inside each lane, and returns empty immediately on an empty
queue.  Draining any queue state yields exactly the high lane oldest-first,
then the normal lane, then the low lane (the lanes are lpushed at the head,
so oldest-first is the reverse); for every push sequence from the empty
queue, the drain order is the high-priority requests in push order, then the
normal ones, then the low ones; the claim's scenario S1(high), S2(normal),
S3(high) drains as S1, S3, S2. -/
theorem pop_priority_and_fifo :
    (∀ st : QueueState, drainAll st = laneOrder st)
    ∧ getNextInQueue emptyQueue = (none, emptyQueue)
    ∧ (∀ es : List (String × String × Priority),
        drainAll (pushList emptyQueue es)
          = laneSelect es .high ++ laneSelect es .normal ++ laneSelect es .low)
    ∧ (drainAll (pushList emptyQueue
          [("S1", "r", .high), ("S2", "r", .normal), ("S3", "r", .high)])).map
        QueueEntry.sessionId = ["S1", "S3", "S2"] := by
  refine ⟨drainAll_eq_laneOrder, rfl, ?_, by decide⟩
  intro es
  obtain ⟨hh, hn, hl⟩ := pushList_lanes es emptyQueue
  rw [drainAll_eq_laneOrder]
  unfold laneOrder
  rw [hh, hn, hl]
  simp [emptyQueue]

theorem cmstate_eq (a b : CMState)
    (h1 : a.sessions = b.sessions) (h2 : a.agents = b.agents)
    (h3 : a.transferQueue = b.transferQueue) : a = b := by
  cases a
  cases b
  simp_all

theorem cmCloseAgent_idem (ag : CMAgent) (sid : String)
    (h : ag.activeSessions.count sid ≤ 1) :
    cmCloseAgent (cmCloseAgent ag sid) sid = cmCloseAgent ag sid := by
  have hnot : sid ∉ ag.activeSessions.erase sid := by
    intro hmem
    have h1 : 0 < (ag.activeSessions.erase sid).count sid := List.count_pos_iff.mpr hmem
    rw [List.count_erase_self] at h1
    omega
  have herase : (ag.activeSessions.erase sid).erase sid = ag.activeSessions.erase sid :=
    List.erase_of_not_mem hnot
  by_cases he : (ag.activeSessions.erase sid).isEmpty <;>
    simp [cmCloseAgent, herase, he]

theorem cm_close_sessions (st : CMState) (sid : String) (sess : CMSession)
    (h : lookupKey st.sessions sid = some sess) :
    (CM.closeSession st sid).sessions
      = updRows st.sessions sid (fun s => { s with status := SessionStatus.closed }) := by
  unfold CM.closeSession
  rw [h]
  cases hA : sess.assignedAgent with
  | none => simp [hA, CM.removeFromQueue]
  | some aid =>
    cases hag : lookupKey st.agents aid <;>
      simp [hA, hag, CM.removeFromQueue]

theorem cm_close_queue (st : CMState) (sid : String) (sess : CMSession)
    (h : lookupKey st.sessions sid = some sess) :
    (CM.closeSession st sid).transferQueue
      = (removeFirst (fun e => e.sessionId = sid) st.transferQueue).2 := by
  unfold CM.closeSession
  rw [h]
  cases hA : sess.assignedAgent with
  | none => simp [hA, CM.removeFromQueue]
  | some aid =>
    cases hag : lookupKey st.agents aid <;>
      simp [hA, hag, CM.removeFromQueue]

theorem cm_close_agents_of_none (st : CMState) (sid : String) (sess : CMSession)
    (h : lookupKey st.sessions sid = some sess) (hA : sess.assignedAgent = none) :
    (CM.closeSession st sid).agents = st.agents := by
  unfold CM.closeSession
  rw [h]
  simp [hA, CM.removeFromQueue]

theorem cm_close_agents_of_missing (st : CMState) (sid : String) (sess : CMSession)
    (aid : String) (h : lookupKey st.sessions sid = some sess)
    (hA : sess.assignedAgent = some aid) (hag : lookupKey st.agents aid = none) :
    (CM.closeSession st sid).agents = st.agents := by
  unfold CM.closeSession
  rw [h]
  simp [hA, hag, CM.removeFromQueue]

theorem cm_close_agents_of_some (st : CMState) (sid : String) (sess : CMSession)
    (aid : String) (ag : CMAgent) (h : lookupKey st.sessions sid = some sess)
    (hA : sess.assignedAgent = some aid) (hag : lookupKey st.agents aid = some ag) :
    (CM.closeSession st sid).agents
      = updRows st.agents aid (fun _ => cmCloseAgent ag sid) := by
  unfold CM.closeSession
  rw [h]
  simp [hA, hag, CM.removeFromQueue]

/-- C6: ChatManager.closeSession is idempotent: under the queue invariant
that a session appears at most once in the transferQueue and at most once in
any agent's workload, closing a session twice produces exactly the state of
closing it once (the second call is total and reports no error), and after
one close no queue entry for the session remains, so queue and workload
removal happen exactly once. -/
theorem cm_close_idempotent (st : CMState) (sid : String)
    (hq : st.transferQueue.countP (fun e => e.sessionId = sid) ≤ 1)
    (ha : ∀ p ∈ st.agents, p.2.activeSessions.count sid ≤ 1) :
    CM.closeSession (CM.closeSession st sid) sid = CM.closeSession st sid
    ∧ ((lookupKey st.sessions sid).isSome →
        ∀ e ∈ (CM.closeSession st sid).transferQueue, e.sessionId ≠ sid) := by
  cases hs : lookupKey st.sessions sid with
  | none =>
    have hid : CM.closeSession st sid = st := by
      unfold CM.closeSession
      rw [hs]
    constructor
    · rw [hid, hid]
    · intro hsome
      simp at hsome
  | some sess =>
    have hSess1 := cm_close_sessions st sid sess hs
    have hQ1 := cm_close_queue st sid sess hs
    have hs2 : lookupKey (CM.closeSession st sid).sessions sid
        = some { sess with status := SessionStatus.closed } := by
      simp [hSess1, lookupKey_updRows_self, hs]
    have hSess2 := cm_close_sessions (CM.closeSession st sid) sid _ hs2
    have hQ2 := cm_close_queue (CM.closeSession st sid) sid _ hs2
    have hqgone : ∀ e ∈ (CM.closeSession st sid).transferQueue,
        (fun e : CMEntry => decide (e.sessionId = sid)) e = false := by
      rw [hQ1]
      exact removeFirst_no_more _ _ hq
    refine ⟨?_, ?_⟩
    · apply cmstate_eq
      · rw [hSess2, hSess1, updRows_updRows]
      · cases hA : sess.assignedAgent with
        | none =>
          have h1 := cm_close_agents_of_none st sid sess hs hA
          have h2 := cm_close_agents_of_none (CM.closeSession st sid) sid _ hs2 hA
          rw [h2, h1]
        | some aid =>
          cases hag : lookupKey st.agents aid with
          | none =>
            have h1 := cm_close_agents_of_missing st sid sess aid hs hA hag
            have hag2 : lookupKey (CM.closeSession st sid).agents aid = none := by
              rw [h1]
              exact hag
            have h2 := cm_close_agents_of_missing (CM.closeSession st sid) sid _ aid hs2 hA hag2
            rw [h2, h1]
          | some ag =>
            have h1 := cm_close_agents_of_some st sid sess aid ag hs hA hag
            have hag2 : lookupKey (CM.closeSession st sid).agents aid
                = some (cmCloseAgent ag sid) := by
              simp [h1, lookupKey_updRows_self, hag]
            have h2 := cm_close_agents_of_some (CM.closeSession st sid) sid _ aid
              (cmCloseAgent ag sid) hs2 hA hag2
            rw [h2, h1, updRows_updRows]
            apply updRows_congr
            intro v
            exact cmCloseAgent_idem ag sid (ha (aid, ag) (lookupKey_mem hag))
      · rw [hQ2]
        have hrf := removeFirst_of_forall_not
          (fun e : CMEntry => decide (e.sessionId = sid)) _ hqgone
        rw [hrf]
    · intro _ e he
      have := hqgone e he
      simpa using this

def w6State : CMState :=
  { sessions := [("s", { id := "s", status := .agent, assignedAgent := some "a" })]
    agents := [("a", { id := "a", status := .busy, activeSessions := ["s"] })]
    transferQueue := [{ sessionId := "s", reason := "r", priority := .normal }] }

/-- C6 witness: idempotence of closeSession at a concrete state with the
session assigned to an agent and present once in the queue. -/
theorem cm_close_idempotent_witness :
    CM.closeSession (CM.closeSession w6State "s") "s" = CM.closeSession w6State "s" :=
  (cm_close_idempotent w6State "s" (by decide) (by decide)).1
